import Mathlib

/-!
Verification of the grandine fork-choice block processor and Eth1 execution
API client against their natural-language specification.

The Rust sources are shallowly embedded:
- machine integers and opaque byte values (hashes, durations, URLs where
  convenient) become Nat or String;
- Rust Result becomes Except, Option stays Option;
- the stateful endpoint-failover loop becomes a structurally recursive
  function over the remaining endpoint list, returning the emitted
  telemetry events, the reset count and the final pool contents;
- JSON-RPC calls are embedded as the request value the code would issue
  (method name, serialized params, timeout), with the engine's response
  supplied as an oracle argument.
-/

/-- Protocol phases, in chronological (derived Ord) order, from
types::nonstandard::Phase.  The source asserts CARDINALITY = 5. -/
inductive Phase
  | phase0
  | altair
  | bellatrix
  | capella
  | deneb
  deriving DecidableEq, Repr

/-- Numeric index of a phase, giving the derived Ord order of the Rust enum. -/
def Phase.toNat : Phase → Nat
  | .phase0 => 0
  | .altair => 1
  | .bellatrix => 2
  | .capella => 3
  | .deneb => 4

/-- The derived < on the Rust Phase enum (variant order). -/
def phaseLt (a b : Phase) : Bool :=
  a.toNat < b.toNat

/-- TimingMetrics from block_processor.rs: a FIFO window of durations
(modelled as Nat, front of the list = oldest) with a running total and a
capacity bound max_size. -/
structure TimingMetrics where
  times : List Nat
  total : Nat
  max_size : Nat
  deriving DecidableEq, Repr

/-- TimingMetrics::new: empty window, zero total, given capacity. -/
def TimingMetrics.new (maxSize : Nat) : TimingMetrics :=
  { times := [], total := 0, max_size := maxSize }

/-- TimingMetrics::update: if the window length has reached max_size, pop the
oldest element (subtracting it from the total), then push the new duration
and add it to the total. -/
def TimingMetrics.update (m : TimingMetrics) (d : Nat) : TimingMetrics :=
  let m :=
    if m.max_size ≤ m.times.length then
      match m.times with
      | [] => m
      | old :: rest => { m with times := rest, total := m.total - old }
    else m
  { m with times := m.times ++ [d], total := m.total + d }

/-- TimingMetrics::min. -/
def TimingMetrics.min (m : TimingMetrics) : Option Nat :=
  m.times.min?

/-- TimingMetrics::max. -/
def TimingMetrics.max (m : TimingMetrics) : Option Nat :=
  m.times.max?

/-- TimingMetrics::average: total divided by window length, absent when empty. -/
def TimingMetrics.average (m : TimingMetrics) : Option Nat :=
  if m.times.isEmpty then none else some (m.total / m.times.length)

/-- TimingMetrics::median: sort the window ascending and average the two
central positions (which coincide for odd length). -/
def TimingMetrics.median (m : TimingMetrics) : Option Nat :=
  let len := m.times.length
  if len = 0 then
    none
  else
    let sorted := List.insertionSort (· ≤ ·) m.times
    let midIdx := len / 2
    some ((sorted.getD midIdx 0 + sorted.getD (len - 1 - midIdx) 0) / 2)

/-- TimingMetrics::count. -/
def TimingMetrics.count (m : TimingMetrics) : Nat :=
  m.times.length

/-- TimingMetrics::last. -/
def TimingMetrics.last (m : TimingMetrics) : Option Nat :=
  m.times.getLast?

/-- A finite sequence of TimingMetrics::update calls, oldest first. -/
def applyUpdates (m : TimingMetrics) (ds : List Nat) : TimingMetrics :=
  ds.foldl TimingMetrics.update m

namespace Eth1Api

/-- Endpoint URL, abstracted to its textual form. -/
abbrev Url := String

/-- Modelled from the spec: Eth1ConnectionData (crate root, not in src/), the
connectivity telemetry event with fields sync_eth1_connected and
sync_eth1_fallback_connected; its Default is both fields false. -/
structure Eth1ConnectionData where
  connected : Bool
  fallback : Bool
  deriving DecidableEq, Repr

/-- The Error enum of eth1_api.rs. -/
inductive Error
  | endpointsExhausted
  | invalidParameters
  | noEndpointsProvided
  | phasePreBellatrix
  deriving DecidableEq, Repr

instance {ε α : Type} [DecidableEq ε] [DecidableEq α] : DecidableEq (Except ε α) :=
  fun a b =>
    match a, b with
    | .ok a, .ok b =>
      if h : a = b then isTrue (by rw [h]) else isFalse (fun hh => h (by cases hh; rfl))
    | .error a, .error b =>
      if h : a = b then isTrue (by rw [h]) else isFalse (fun hh => h (by cases hh; rfl))
    | .ok _, .error _ => isFalse (fun hh => Except.noConfusion hh)
    | .error _, .ok _ => isFalse (fun hh => Except.noConfusion hh)

/-- Observable outcome of one request_with_fallback invocation: the returned
value (the serving URL on success), the telemetry events in emission order,
how many times eth1_api_reset_count was incremented, and the endpoint pool
left behind. -/
structure FallbackOutcome where
  result : Except Error Url
  events : List Eth1ConnectionData
  resets : Nat
  remaining : List Url
  deriving DecidableEq, Repr

/-- The while-let loop of request_with_fallback over the remaining endpoint
suffix.  The k-th overall attempt (index into original) succeeds iff
succeeds k.  On success the code emits a connected event whose fallback flag
is original.first() != Some(url), and returns without advancing the cursor;
on failure it emits a default (all-false) event and advances. -/
def attemptLoop (original : List Url) (succeeds : Nat → Bool) :
    List Url → Nat → List Eth1ConnectionData × Option (Url × List Url)
  | [], _ => ([], none)
  | url :: rest, k =>
    if succeeds k then
      ([⟨true, original.head? != some url⟩], some (url, url :: rest))
    else
      let (evs, r) := attemptLoop original succeeds rest (k + 1)
      (⟨false, false⟩ :: evs, r)

/-- Eth1Api::request_with_fallback, entered with the pool cursor at index k0
of the original list (the cursor is always a contiguous suffix of original).
When the loop exhausts the pool, the pool is reset to the full original
list and the reset counter incremented, then the call fails with
NoEndpointsProvided when original is empty and EndpointsExhausted otherwise. -/
def requestWithFallback (original : List Url) (k0 : Nat) (succeeds : Nat → Bool) :
    FallbackOutcome :=
  match attemptLoop original succeeds (original.drop k0) k0 with
  | (evs, some (url, rem)) =>
    { result := .ok url, events := evs, resets := 0, remaining := rem }
  | (evs, none) =>
    { result :=
        if original.isEmpty then .error .noEndpointsProvided
        else .error .endpointsExhausted
      events := evs
      resets := 1
      remaining := original }

/-- Serialized JSON values appearing as Engine API call parameters; each
constructor records which Rust value was serialized, keeping the
phase-specific conversion (ExecutionPayloadV1/V2/V3::from) visible. -/
inductive Json
  | executionPayloadV1 (body : Nat)
  | executionPayloadV2 (body : Nat)
  | executionPayloadV3 (body : Nat)
  | versionedHashes (hashes : List Nat)
  | h256 (root : Nat)
  | forkChoiceStateV1 (headBlockHash safeBlockHash finalizedBlockHash : Nat)
  | payloadAttributes (phase : Phase) (data : Nat)
  | nullValue
  deriving DecidableEq, Repr

/-- A JSON-RPC request the client would issue: method name, params in order,
and timeout in seconds. -/
structure EngineRequest where
  method : String
  params : List Json
  timeout : Nat
  deriving DecidableEq, Repr

/-- combined::ExecutionPayload: phase-tagged payload, body abstracted. -/
inductive ExecutionPayload
  | bellatrix (body : Nat)
  | capella (body : Nat)
  | deneb (body : Nat)
  deriving DecidableEq, Repr

/-- combined::ExecutionPayloadParams: only Deneb carries companion params. -/
inductive ExecutionPayloadParams
  | deneb (versionedHashes : List Nat) (parentBeaconBlockRoot : Nat)
  deriving DecidableEq, Repr

/-- Eth1Api::new_payload: dispatch on the (payload, params) pair.  The three
listed combinations produce an engine_newPayloadV1/V2/V3 request with an
8-second timeout; every other combination bails with InvalidParameters
before any request is built. -/
def newPayload (payload : ExecutionPayload) (params : Option ExecutionPayloadParams) :
    Except Error EngineRequest :=
  match payload, params with
  | .bellatrix body, none =>
    .ok { method := "engine_newPayloadV1"
          params := [.executionPayloadV1 body]
          timeout := 8 }
  | .capella body, none =>
    .ok { method := "engine_newPayloadV2"
          params := [.executionPayloadV2 body]
          timeout := 8 }
  | .deneb body, some (.deneb versionedHashes parentBeaconBlockRoot) =>
    .ok { method := "engine_newPayloadV3"
          params := [.executionPayloadV3 body,
                     .versionedHashes versionedHashes,
                     .h256 parentBeaconBlockRoot]
          timeout := 8 }
  | _, _ => .error .invalidParameters

/-- PayloadAttributes, phase-tagged with abstract contents. -/
structure PayloadAttributes where
  phase : Phase
  data : Nat
  deriving DecidableEq, Repr

/-- PayloadId: an 8-byte id (abstracted) tagged with the phase used to
produce it. -/
inductive PayloadId
  | bellatrix (id : Nat)
  | capella (id : Nat)
  | deneb (id : Nat)
  deriving DecidableEq, Repr

/-- The phase a PayloadId is tagged with. -/
def PayloadId.phase : PayloadId → Phase
  | .bellatrix _ => .bellatrix
  | .capella _ => .capella
  | .deneb _ => .deneb

/-- RawForkChoiceUpdatedResponse: what the engine returns before re-tagging,
payload_status abstracted. -/
structure RawForkChoiceUpdatedResponse where
  payloadStatus : Nat
  payloadId : Option Nat
  deriving DecidableEq, Repr

/-- ForkChoiceUpdatedResponse: payload status plus the re-tagged payload id. -/
structure ForkChoiceUpdatedResponse where
  payloadStatus : Nat
  payloadId : Option PayloadId
  deriving DecidableEq, Repr

/-- The first match of Eth1Api::forkchoice_updated: choose the
engine_forkchoiceUpdated method version from the phase, bailing with
PhasePreBellatrix for any other phase. -/
def fcuMethod : Phase → Except Error String
  | .bellatrix => .ok "engine_forkchoiceUpdatedV1"
  | .capella => .ok "engine_forkchoiceUpdatedV2"
  | .deneb => .ok "engine_forkchoiceUpdatedV3"
  | _ => .error .phasePreBellatrix

/-- The second match of Eth1Api::forkchoice_updated: re-tag the raw optional
payload id with the current phase, with the same PhasePreBellatrix bail in
the catch-all arm. -/
def fcuRetag : Phase → Option Nat → Except Error (Option PayloadId)
  | .bellatrix, payloadId => .ok (payloadId.map PayloadId.bellatrix)
  | .capella, payloadId => .ok (payloadId.map PayloadId.capella)
  | .deneb, payloadId => .ok (payloadId.map PayloadId.deneb)
  | _, _ => .error .phasePreBellatrix

/-- The phase driving forkchoice_updated dispatch: taken from the left
alternative directly, or from the attributes' phase tag. -/
def fcuPhase : Sum Phase PayloadAttributes → Phase
  | .inl phase => phase
  | .inr attributes => attributes.phase

/-- Serialization of the optional payload attributes (None becomes null). -/
def serializeAttributes : Option PayloadAttributes → Json
  | none => .nullValue
  | some attributes => .payloadAttributes attributes.phase attributes.data

/-- Eth1Api::forkchoice_updated.  The engine's raw response is supplied as an
oracle; the function returns the request that was issued together with the
re-tagged response, or the error raised before any request was issued. -/
def forkchoiceUpdated (headBlockHash safeBlockHash finalizedBlockHash : Nat)
    (payloadAttributes : Sum Phase PayloadAttributes)
    (raw : RawForkChoiceUpdatedResponse) :
    Except Error (EngineRequest × ForkChoiceUpdatedResponse) :=
  let phase := fcuPhase payloadAttributes
  let attributes := match payloadAttributes with
    | .inl _ => none
    | .inr a => some a
  let params := [Json.forkChoiceStateV1 headBlockHash safeBlockHash finalizedBlockHash,
                 serializeAttributes attributes]
  match fcuMethod phase with
  | .error e => .error e
  | .ok method =>
    match fcuRetag phase raw.payloadId with
    | .error e => .error e
    | .ok payloadId =>
      .ok ({ method := method, params := params, timeout := 8 },
           { payloadStatus := raw.payloadStatus, payloadId := payloadId })

/-- web3 BlockNumber selector (only the variants the source uses). -/
inductive BlockNumber
  | earliest
  | number (n : Nat)
  deriving DecidableEq, Repr

/-- web3 log filter as assembled by FilterBuilder: every field is absent
until set. -/
structure Filter where
  fromBlock : Option BlockNumber
  toBlock : Option BlockNumber
  address : Option (List Nat)
  topics : Option (List (Option (List Nat)))
  limit : Option Nat
  deriving DecidableEq, Repr

/-- FilterBuilder::default(): all fields unset. -/
def FilterBuilder.default : Filter :=
  { fromBlock := none, toBlock := none, address := none, topics := none, limit := none }

/-- FilterBuilder::from_block. -/
def Filter.from_block (f : Filter) (b : BlockNumber) : Filter :=
  { f with fromBlock := some b }

/-- FilterBuilder::address. -/
def Filter.address_ (f : Filter) (a : List Nat) : Filter :=
  { f with address := some a }

/-- FilterBuilder::limit. -/
def Filter.limit_ (f : Filter) (n : Nat) : Filter :=
  { f with limit := some n }

/-- FilterBuilder::topics: sets the four positional topic filters. -/
def Filter.topics_ (f : Filter) (t1 t2 t3 t4 : Option (List Nat)) : Filter :=
  { f with topics := some [t1, t2, t3, t4] }

/-- A log entry as returned by eth_getLogs; only the block number matters
here. -/
structure Log where
  blockNumber : Option Nat
  deriving DecidableEq, Repr

/-- Eth1Api::get_first_deposit_contract_block_number: builds the filter
(from earliest, deposit contract address, limit 1 — the source sets no
topic filter for this query), issues the logs request (the response is the
oracle argument), and returns the block number of the first log when both
exist.  The issued filter is returned alongside the result. -/
def getFirstDepositContractBlockNumber (depositContractAddress : Nat)
    (logs : List Log) : Filter × Option Nat :=
  let filter :=
    (((FilterBuilder.default.from_block .earliest).address_
        [depositContractAddress]).limit_ 1)
  (filter,
   match logs.head? with
   | some log =>
     match log.blockNumber with
     | some blockNumber => some blockNumber
     | none => none
   | none => none)

end Eth1Api

namespace BlockProcessor

/-- The key a StateCacheProcessor entry is stored under: the triple passed to
get_or_insert_with by block_processor.rs. -/
structure CacheKey where
  root : Nat
  slot : Nat
  fullTransition : Bool
  deriving DecidableEq, Repr

/-- A state cache as an association list from keys to cached values (the
value type sigma stands for the (state, rewards option) pair). -/
def StateCache (sigma : Type) : Type :=
  List (CacheKey × sigma)

/-- Lookup in the state cache. -/
def StateCache.find? {sigma : Type} (c : StateCache sigma) (k : CacheKey) : Option sigma :=
  match c with
  | [] => none
  | (key, v) :: rest => if key = k then some v else StateCache.find? rest k

/-- Modelled from the spec: StateCacheProcessor::get_or_insert_with
(state_cache crate, not in src/): keyed insert-or-compute over
(block-root, slot, full_transition).  Returns the cached value when the key
is present, otherwise runs the computation and stores its result under the
key. -/
def getOrInsertWith {sigma epsilon : Type} (c : StateCache sigma) (k : CacheKey)
    (compute : Unit → Except epsilon sigma) : Except epsilon (sigma × StateCache sigma) :=
  match StateCache.find? c k with
  | some v => .ok (v, c)
  | none => (compute ()).map (fun v => (v, (k, v) :: c))

/-- A beacon block (full or blinded), reduced to the two fields
block_processor.rs reads when building a cache key: its SSZ hash-tree-root
and its slot. -/
structure BeaconBlock where
  hash_tree_root : Nat
  slot : Nat
  deriving DecidableEq, Repr

/-- A signed beacon block, reduced to the slot of its message
(perform_state_transition is keyed by an explicit block_root argument, not
by this block's own root). -/
structure SignedBeaconBlock where
  slot : Nat
  deriving DecidableEq, Repr

/-- BlockProcessor::process_untrusted_block_with_report: delegates to
get_or_insert_with keyed by (block.hash_tree_root(), block.slot(), false). -/
def process_untrusted_block_with_report {sigma epsilon : Type} (cache : StateCache sigma)
    (block : BeaconBlock) (compute : Unit → Except epsilon sigma) :
    Except epsilon (sigma × StateCache sigma) :=
  getOrInsertWith cache ⟨block.hash_tree_root, block.slot, false⟩ compute

/-- BlockProcessor::process_trusted_block_with_report: same key shape as the
untrusted variant, full_transition = false. -/
def process_trusted_block_with_report {sigma epsilon : Type} (cache : StateCache sigma)
    (block : BeaconBlock) (compute : Unit → Except epsilon sigma) :
    Except epsilon (sigma × StateCache sigma) :=
  getOrInsertWith cache ⟨block.hash_tree_root, block.slot, false⟩ compute

/-- BlockProcessor::process_untrusted_blinded_block_with_report:
full_transition = false. -/
def process_untrusted_blinded_block_with_report {sigma epsilon : Type}
    (cache : StateCache sigma) (block : BeaconBlock)
    (compute : Unit → Except epsilon sigma) : Except epsilon (sigma × StateCache sigma) :=
  getOrInsertWith cache ⟨block.hash_tree_root, block.slot, false⟩ compute

/-- BlockProcessor::process_trusted_blinded_block_with_report:
full_transition = false. -/
def process_trusted_blinded_block_with_report {sigma epsilon : Type}
    (cache : StateCache sigma) (block : BeaconBlock)
    (compute : Unit → Except epsilon sigma) : Except epsilon (sigma × StateCache sigma) :=
  getOrInsertWith cache ⟨block.hash_tree_root, block.slot, false⟩ compute

/-- BlockProcessor::perform_state_transition: delegates to get_or_insert_with
keyed by the explicit block_root argument, block.message().slot(), and
full_transition = true. -/
def perform_state_transition {sigma epsilon : Type} (cache : StateCache sigma)
    (block : SignedBeaconBlock) (block_root : Nat)
    (compute : Unit → Except epsilon sigma) : Except epsilon (sigma × StateCache sigma) :=
  getOrInsertWith cache ⟨block_root, block.slot, true⟩ compute

/-- Modelled from the spec: fork_choice_store::PartialBlockAction (not in
src/), the verdict of validate_merge_block. -/
inductive PartialBlockAction
  | accept
  | ignore
  deriving DecidableEq, Repr

/-- Modelled from the spec: fork_choice_store::BlockAction (not in src/);
only the Ignore(publish) variant is produced by the code under study. -/
inductive BlockAction
  | ignore (publish : Bool)
  deriving DecidableEq, Repr

/-- The closure passed to validate_block_with_custom_state_transition inside
BlockProcessor::validate_block, from the point where the pre-state has been
obtained.  Arguments abstract the collaborators: postBellatrixBody is
block.message().body().post_bellatrix(); isMergeTransitionBlock is
predicates::is_merge_transition_block applied to the pre-state;
validateMergeBlock is the verdict (or error) of
fork_choice_store::validate_merge_block; performStateTransition is
self.perform_state_transition on the pre-state.  The returned Bool records
whether performStateTransition was invoked. -/
def validateBlockStep {sigma beta epsilon : Type} (preState : sigma) (blockPhase : Phase)
    (postBellatrixBody : Option beta)
    (isMergeTransitionBlock : sigma → beta → Bool)
    (validateMergeBlock : Except epsilon PartialBlockAction)
    (performStateTransition : sigma → Except epsilon sigma) :
    Except epsilon (sigma × Option BlockAction) × Bool :=
  let runTransition :=
    ((performStateTransition preState).map (fun s => (s, none)), true)
  if phaseLt blockPhase .capella then
    match postBellatrixBody.filter (fun body => isMergeTransitionBlock preState body) with
    | some _ =>
      match validateMergeBlock with
      | .ok .accept => runTransition
      | .ok .ignore => (.ok (preState, some (.ignore false)), false)
      | .error e => (.error e, false)
    | none => runTransition
  else runTransition

end BlockProcessor

namespace Eth1Api

/-- C3: new_payload dispatches exactly per the table: a Bellatrix payload with
no params calls engine_newPayloadV1 with [payload_v1]; a Capella payload with
no params calls engine_newPayloadV2 with [payload_v2]; a Deneb payload with
Deneb params calls engine_newPayloadV3 with
[payload_v3, versioned_hashes, parent_beacon_block_root]; every other
(payload phase, params) combination returns InvalidParameters without any
request being built.  Since ExecutionPayloadParams has only the Deneb
variant, the last three conjuncts cover every remaining combination. -/
theorem newPayload_dispatch_table (body parentBeaconBlockRoot : Nat)
    (versionedHashes : List Nat) (extraParams : ExecutionPayloadParams) :
    newPayload (.bellatrix body) none =
      .ok { method := "engine_newPayloadV1"
            params := [.executionPayloadV1 body]
            timeout := 8 } ∧
    newPayload (.capella body) none =
      .ok { method := "engine_newPayloadV2"
            params := [.executionPayloadV2 body]
            timeout := 8 } ∧
    newPayload (.deneb body) (some (.deneb versionedHashes parentBeaconBlockRoot)) =
      .ok { method := "engine_newPayloadV3"
            params := [.executionPayloadV3 body,
                       .versionedHashes versionedHashes,
                       .h256 parentBeaconBlockRoot]
            timeout := 8 } ∧
    newPayload (.bellatrix body) (some extraParams) = .error .invalidParameters ∧
    newPayload (.capella body) (some extraParams) = .error .invalidParameters ∧
    newPayload (.deneb body) none = .error .invalidParameters := by
  refine ⟨rfl, rfl, rfl, ?_, ?_, rfl⟩ <;> cases extraParams <;> rfl

/-- C7 counterexample: the filter built by
get_first_deposit_contract_block_number sets no topic filter at all
(FilterBuilder::default() is only given from_block, address and limit), so
its topics field is none rather than the claimed [[DepositEvent::TOPIC]]. -/
theorem getFirstDeposit_no_topic_filter :
    (getFirstDepositContractBlockNumber 7 []).1.topics = none := rfl

/-- C7 (amended): every call to get_first_deposit_contract_block_number
issues an eth_getLogs request whose filter has fromBlock = earliest,
address = [deposit contract address], no topic filter, and limit = 1, and
returns the block number of the first returned log, or none when there is
no log or the first log carries no block number. -/
theorem getFirstDepositContractBlockNumber_spec (depositContractAddress : Nat)
    (logs : List Log) :
    getFirstDepositContractBlockNumber depositContractAddress logs =
      ({ fromBlock := some .earliest
         toBlock := none
         address := some [depositContractAddress]
         topics := none
         limit := some 1 },
       logs.head?.bind Log.blockNumber) := by
  cases logs with
  | nil => rfl
  | cons log rest =>
    cases hbn : log.blockNumber <;>
      simp [getFirstDepositContractBlockNumber, FilterBuilder.default,
        Filter.from_block, Filter.address_, Filter.limit_, hbn]

/-- C8: forkchoice_updated called with a pre-Bellatrix phase as the left
alternative of the payload-attributes argument returns PhasePreBellatrix
without any request being built; for Bellatrix, Capella and Deneb (whether
the phase comes from the left phase marker or from the attributes' tag) it
issues engine_forkchoiceUpdatedV1, V2 and V3 respectively. -/
theorem forkchoiceUpdated_dispatch (headBlockHash safeBlockHash finalizedBlockHash : Nat)
    (raw : RawForkChoiceUpdatedResponse) (attrData : Nat) :
    forkchoiceUpdated headBlockHash safeBlockHash finalizedBlockHash
        (.inl .phase0) raw = .error .phasePreBellatrix ∧
    forkchoiceUpdated headBlockHash safeBlockHash finalizedBlockHash
        (.inl .altair) raw = .error .phasePreBellatrix ∧
    forkchoiceUpdated headBlockHash safeBlockHash finalizedBlockHash
        (.inl .bellatrix) raw =
      .ok ({ method := "engine_forkchoiceUpdatedV1"
             params := [.forkChoiceStateV1 headBlockHash safeBlockHash finalizedBlockHash,
                        .nullValue]
             timeout := 8 },
           { payloadStatus := raw.payloadStatus
             payloadId := raw.payloadId.map PayloadId.bellatrix }) ∧
    forkchoiceUpdated headBlockHash safeBlockHash finalizedBlockHash
        (.inl .capella) raw =
      .ok ({ method := "engine_forkchoiceUpdatedV2"
             params := [.forkChoiceStateV1 headBlockHash safeBlockHash finalizedBlockHash,
                        .nullValue]
             timeout := 8 },
           { payloadStatus := raw.payloadStatus
             payloadId := raw.payloadId.map PayloadId.capella }) ∧
    forkchoiceUpdated headBlockHash safeBlockHash finalizedBlockHash
        (.inl .deneb) raw =
      .ok ({ method := "engine_forkchoiceUpdatedV3"
             params := [.forkChoiceStateV1 headBlockHash safeBlockHash finalizedBlockHash,
                        .nullValue]
             timeout := 8 },
           { payloadStatus := raw.payloadStatus
             payloadId := raw.payloadId.map PayloadId.deneb }) ∧
    forkchoiceUpdated headBlockHash safeBlockHash finalizedBlockHash
        (.inr ⟨.phase0, attrData⟩) raw = .error .phasePreBellatrix ∧
    forkchoiceUpdated headBlockHash safeBlockHash finalizedBlockHash
        (.inr ⟨.bellatrix, attrData⟩) raw =
      .ok ({ method := "engine_forkchoiceUpdatedV1"
             params := [.forkChoiceStateV1 headBlockHash safeBlockHash finalizedBlockHash,
                        .payloadAttributes .bellatrix attrData]
             timeout := 8 },
           { payloadStatus := raw.payloadStatus
             payloadId := raw.payloadId.map PayloadId.bellatrix }) ∧
    forkchoiceUpdated headBlockHash safeBlockHash finalizedBlockHash
        (.inr ⟨.capella, attrData⟩) raw =
      .ok ({ method := "engine_forkchoiceUpdatedV2"
             params := [.forkChoiceStateV1 headBlockHash safeBlockHash finalizedBlockHash,
                        .payloadAttributes .capella attrData]
             timeout := 8 },
           { payloadStatus := raw.payloadStatus
             payloadId := raw.payloadId.map PayloadId.capella }) ∧
    forkchoiceUpdated headBlockHash safeBlockHash finalizedBlockHash
        (.inr ⟨.deneb, attrData⟩) raw =
      .ok ({ method := "engine_forkchoiceUpdatedV3"
             params := [.forkChoiceStateV1 headBlockHash safeBlockHash finalizedBlockHash,
                        .payloadAttributes .deneb attrData]
             timeout := 8 },
           { payloadStatus := raw.payloadStatus
             payloadId := raw.payloadId.map PayloadId.deneb }) := by
  exact ⟨rfl, rfl, rfl, rfl, rfl, rfl, rfl, rfl, rfl⟩

/-- C10: the error branch of the second (re-tagging) match of
forkchoice_updated is unreachable.  Whenever the first match succeeded in
choosing a method (which happens exactly for Bellatrix, Capella and Deneb),
the re-tagging match cannot bail and tags any present payload id with the
same phase that selected the method version; and any PhasePreBellatrix
error returned by forkchoice_updated was already raised by the first match. -/
theorem fcuRetag_error_unreachable :
    (∀ (phase : Phase) (rawPayloadId : Option Nat) (method : String),
      fcuMethod phase = .ok method →
      fcuRetag phase rawPayloadId ≠ .error .phasePreBellatrix ∧
      ∃ retagged, fcuRetag phase rawPayloadId = .ok retagged ∧
        ∀ t, retagged = some t → PayloadId.phase t = phase) ∧
    (∀ (headBlockHash safeBlockHash finalizedBlockHash : Nat)
      (payloadAttributes : Sum Phase PayloadAttributes)
      (raw : RawForkChoiceUpdatedResponse) (e : Error),
      forkchoiceUpdated headBlockHash safeBlockHash finalizedBlockHash
        payloadAttributes raw = .error e →
      fcuMethod (fcuPhase payloadAttributes) = .error e) := by
  constructor
  · intro phase rawPayloadId method hMethod
    cases phase <;> simp_all [fcuMethod, fcuRetag] <;>
      · cases rawPayloadId <;> simp [PayloadId.phase]
  · intro headBlockHash safeBlockHash finalizedBlockHash payloadAttributes raw e hErr
    cases payloadAttributes with
    | inl p =>
      cases p <;> simp_all [forkchoiceUpdated, fcuPhase, fcuMethod, fcuRetag]
    | inr a =>
      obtain ⟨ph, d⟩ := a
      cases ph <;> simp_all [forkchoiceUpdated, fcuPhase, fcuMethod, fcuRetag]

/-- C10 witness: at Capella with a present raw payload id, the re-tagging
match succeeds and tags the id with Capella. -/
theorem fcuRetag_error_unreachable_witness :
    fcuRetag .capella (some 7) ≠ .error .phasePreBellatrix ∧
    ∃ retagged, fcuRetag .capella (some 7) = .ok retagged ∧
      ∀ t, retagged = some t → PayloadId.phase t = .capella :=
  fcuRetag_error_unreachable.1 .capella (some 7) "engine_forkchoiceUpdatedV2" rfl

end Eth1Api

namespace BlockProcessor

/-- C1: in validate_block, the merge-transition gate runs only for blocks
whose phase is earlier than Capella.  For such a block whose post-Bellatrix
body satisfies is_merge_transition_block on the pre-state,
validate_merge_block's verdict decides: Ignore returns the unchanged
pre-state paired with BlockAction::Ignore(publish = false) and
perform_state_transition is not invoked (recorded Bool is false); Accept
runs perform_state_transition on the pre-state (recorded Bool is true).
For every block of phase Capella or later, or with no qualifying body,
perform_state_transition is invoked directly. -/
theorem validateBlock_merge_transition_gate {sigma beta epsilon : Type}
    (preState : sigma) (blockPhase : Phase) (body : beta)
    (isMergeTransitionBlock : sigma → beta → Bool)
    (validateMergeBlock : Except epsilon PartialBlockAction)
    (performStateTransition : sigma → Except epsilon sigma) :
    (phaseLt blockPhase .capella = true →
      isMergeTransitionBlock preState body = true →
      (validateMergeBlock = .ok .ignore →
        validateBlockStep preState blockPhase (some body) isMergeTransitionBlock
            validateMergeBlock performStateTransition =
          (.ok (preState, some (.ignore false)), false)) ∧
      (validateMergeBlock = .ok .accept →
        validateBlockStep preState blockPhase (some body) isMergeTransitionBlock
            validateMergeBlock performStateTransition =
          ((performStateTransition preState).map (fun s => (s, none)), true))) ∧
    (phaseLt blockPhase .capella = false →
      ∀ anyBody : Option beta,
        validateBlockStep preState blockPhase anyBody isMergeTransitionBlock
            validateMergeBlock performStateTransition =
          ((performStateTransition preState).map (fun s => (s, none)), true)) := by
  constructor
  · intro hPhase hMerge
    constructor
    · intro hIgnore
      subst hIgnore
      simp [validateBlockStep, hPhase, Option.filter, hMerge]
    · intro hAccept
      subst hAccept
      simp [validateBlockStep, hPhase, Option.filter, hMerge]
  · intro hPhase anyBody
    simp [validateBlockStep, hPhase]

/-- C1 witness: a Bellatrix block whose body is a merge-transition block and
for which validate_merge_block says Ignore makes the closure return the
unchanged pre-state with Ignore(publish = false) and never run the
transition; the same input with an Accept verdict runs the transition. -/
theorem validateBlock_merge_transition_gate_witness :
    @validateBlockStep Nat Nat Unit
        0 .bellatrix (some 5) (fun _ _ => true) (.ok .ignore) (fun s => .ok (s + 1)) =
      (.ok (0, some (.ignore false)), false) ∧
    @validateBlockStep Nat Nat Unit
        0 .bellatrix (some 5) (fun _ _ => true) (.ok .accept) (fun s => .ok (s + 1)) =
      (.ok (1, none), true) ∧
    @validateBlockStep Nat Nat Unit
        0 .capella (some 5) (fun _ _ => true) (.ok .ignore) (fun s => .ok (s + 1)) =
      (.ok (1, none), true) := by
  refine ⟨?_, ?_, ?_⟩
  · exact ((validateBlock_merge_transition_gate 0 .bellatrix 5 (fun _ _ => true)
      (.ok .ignore) (fun s => .ok (s + 1))).1 rfl rfl).1 rfl
  · exact ((validateBlock_merge_transition_gate 0 .bellatrix 5 (fun _ _ => true)
      (.ok .accept) (fun s => .ok (s + 1))).1 rfl rfl).2 rfl
  · exact (validateBlock_merge_transition_gate 0 .capella 5 (fun _ _ => true)
      (.ok .ignore) (fun s => .ok (s + 1))).2 rfl (some 5)

/-- C4: the four with-report operations call get_or_insert_with keyed by the
block's hash-tree-root and slot with full_transition = false, while
perform_state_transition is keyed by its explicit block_root argument and
the block's slot with full_transition = true; keys of the two families with
the same (root, slot) are distinct, and an entry inserted under one flag is
invisible to lookups under the other, so the two families never share a
cache entry. -/
theorem cacheKey_families_disjoint {sigma epsilon : Type} (cache : StateCache sigma)
    (block : BeaconBlock) (signedBlock : SignedBeaconBlock) (block_root : Nat)
    (compute : Unit → Except epsilon sigma) :
    process_untrusted_block_with_report cache block compute =
      getOrInsertWith cache ⟨block.hash_tree_root, block.slot, false⟩ compute ∧
    process_trusted_block_with_report cache block compute =
      getOrInsertWith cache ⟨block.hash_tree_root, block.slot, false⟩ compute ∧
    process_untrusted_blinded_block_with_report cache block compute =
      getOrInsertWith cache ⟨block.hash_tree_root, block.slot, false⟩ compute ∧
    process_trusted_blinded_block_with_report cache block compute =
      getOrInsertWith cache ⟨block.hash_tree_root, block.slot, false⟩ compute ∧
    perform_state_transition cache signedBlock block_root compute =
      getOrInsertWith cache ⟨block_root, signedBlock.slot, true⟩ compute ∧
    (∀ root slot : Nat, (⟨root, slot, false⟩ : CacheKey) ≠ ⟨root, slot, true⟩) ∧
    (∀ (root slot : Nat) (v : sigma),
      StateCache.find? ((⟨root, slot, false⟩, v) :: cache) ⟨root, slot, true⟩ =
        StateCache.find? cache ⟨root, slot, true⟩) ∧
    (∀ (root slot : Nat) (v : sigma),
      StateCache.find? ((⟨root, slot, true⟩, v) :: cache) ⟨root, slot, false⟩ =
        StateCache.find? cache ⟨root, slot, false⟩) := by
  refine ⟨rfl, rfl, rfl, rfl, rfl, ?_, ?_, ?_⟩
  · intro root slot h
    exact Bool.false_ne_true (congrArg CacheKey.fullTransition h)
  · intro root slot v
    simp [StateCache.find?]
  · intro root slot v
    simp [StateCache.find?]

end BlockProcessor

namespace Eth1Api

/-- When every attempt in the remaining suffix fails, the loop emits one
default telemetry event per endpoint and terminates without a result. -/
lemma attemptLoop_all_fail (original : List Url) (succeeds : Nat → Bool) :
    ∀ (l : List Url) (k : Nat),
      (∀ i, k ≤ i → i < k + l.length → succeeds i = false) →
      attemptLoop original succeeds l k =
        (List.replicate l.length ⟨false, false⟩, none) := by
  intro l
  induction l with
  | nil => intro k _; rfl
  | cons url rest ih =>
    intro k h
    have hk : succeeds k = false := h k le_rfl (by simp)
    have hrest := ih (k + 1) (fun i h1 h2 => h i (by omega) (by simp at h2 ⊢; omega))
    simp [attemptLoop, hk, hrest, List.replicate_succ]

/-- C2: whenever every endpoint of the (possibly empty) pool fails during a
request_with_fallback invocation, the pool ends up reset to the full
original sequence and the reset counter is incremented exactly once, and
the call fails with NoEndpointsProvided exactly when the original endpoint
list is empty, with EndpointsExhausted otherwise. -/
theorem requestWithFallback_exhaustion (original : List Url) (k0 : Nat)
    (succeeds : Nat → Bool)
    (hAllFail : ∀ i, k0 ≤ i → i < original.length → succeeds i = false) :
    (requestWithFallback original k0 succeeds).remaining = original ∧
    (requestWithFallback original k0 succeeds).resets = 1 ∧
    ((requestWithFallback original k0 succeeds).result =
        .error .noEndpointsProvided ↔ original = []) ∧
    ((requestWithFallback original k0 succeeds).result =
        .error .endpointsExhausted ↔ original ≠ []) := by
  have hLoop := attemptLoop_all_fail original succeeds (original.drop k0) k0
    (fun i h1 h2 => hAllFail i h1 (by simp at h2; omega))
  rw [requestWithFallback, hLoop]
  by_cases hEmpty : original = []
  · subst hEmpty; simp
  · simp [hEmpty, List.isEmpty_iff]

/-- C2 witness: a one-endpoint pool whose only endpoint fails is reset, the
reset counter increments, and the call fails with EndpointsExhausted. -/
theorem requestWithFallback_exhaustion_witness :
    (requestWithFallback ["a"] 0 (fun _ => false)).remaining = ["a"] ∧
    (requestWithFallback ["a"] 0 (fun _ => false)).resets = 1 ∧
    ((requestWithFallback ["a"] 0 (fun _ => false)).result =
        .error .noEndpointsProvided ↔ (["a"] : List Url) = []) ∧
    ((requestWithFallback ["a"] 0 (fun _ => false)).result =
        .error .endpointsExhausted ↔ (["a"] : List Url) ≠ []) :=
  requestWithFallback_exhaustion ["a"] 0 (fun _ => false) (fun _ _ _ => rfl)

/-- When the first j attempts fail and the (j+1)-st succeeds, the loop emits
j default events followed by one connected event whose fallback flag
compares the successful URL against original.first() by value. -/
lemma attemptLoop_first_success (original : List Url) (succeeds : Nat → Bool) :
    ∀ (j : Nat) (l : List Url) (k : Nat),
      j < l.length →
      (∀ i, i < j → succeeds (k + i) = false) →
      succeeds (k + j) = true →
      attemptLoop original succeeds l k =
        (List.replicate j ⟨false, false⟩ ++
           [⟨true, original.head? != some (l.getD j "")⟩],
         some (l.getD j "", l.drop j)) := by
  intro j
  induction j with
  | zero =>
    intro l k hlen _ hsucc
    cases l with
    | nil => simp at hlen
    | cons url rest =>
      have hk : succeeds k = true := by simpa using hsucc
      simp [attemptLoop, hk]
  | succ j ih =>
    intro l k hlen hfail hsucc
    cases l with
    | nil => simp at hlen
    | cons url rest =>
      have hk : succeeds k = false := by simpa using hfail 0 (Nat.succ_pos j)
      have hrest := ih rest (k + 1) (by simpa using hlen)
        (fun i hi => by
          have := hfail (i + 1) (by omega)
          simpa [Nat.add_assoc, Nat.add_comm 1 i] using this)
        (by
          have : k + 1 + j = k + (j + 1) := by omega
          rw [this]; exact hsucc)
      simp [attemptLoop, hk, hrest, List.replicate_succ]

/-- C6 counterexample to the claim as stated: with the duplicate-URL pool
["a", "a"], the first attempt fails and the second (from original[1],
index k = 1 > 0) succeeds, yet the success telemetry event carries
fallback = false, because the source compares the successful URL to
original.first() by value and original[1] equals original[0]. -/
theorem requestWithFallback_duplicate_url_fallback :
    (requestWithFallback ["a", "a"] 0 (fun i => i == 1)).events =
      [⟨false, false⟩, ⟨true, false⟩] ∧
    (requestWithFallback ["a", "a"] 0 (fun i => i == 1)).result = .ok "a" ∧
    (requestWithFallback ["a", "a"] 0 (fun i => i == 1)).remaining = ["a"] := by
  refine ⟨rfl, rfl, rfl⟩

/-- C6 (amended): when a request_with_fallback call entered with the full
pool succeeds at index k after k failures, it emits exactly one default
(connected = false, fallback = false) event per failed attempt, in order,
followed by exactly one success event with connected = true whose fallback
flag is the value comparison original.first() != Some(successful URL): in
particular the flag is false for a success from original[0], and true for a
success from original[k], k > 0, whenever original[k] differs from
original[0] (with duplicate URLs it can be false even though k > 0). -/
theorem requestWithFallback_telemetry (original : List Url) (k : Nat)
    (succeeds : Nat → Bool)
    (hk : k < original.length)
    (hfail : ∀ i, i < k → succeeds i = false)
    (hsucc : succeeds k = true) :
    requestWithFallback original 0 succeeds =
      { result := .ok (original.getD k "")
        events := List.replicate k ⟨false, false⟩ ++
          [⟨true, original.head? != some (original.getD k "")⟩]
        resets := 0
        remaining := original.drop k } ∧
    (k = 0 → (original.head? != some (original.getD k "")) = false) ∧
    (original.getD 0 "" ≠ original.getD k "" →
      (original.head? != some (original.getD k "")) = true) := by
  have hLoop := attemptLoop_first_success original succeeds k original 0 hk
    (fun i hi => by simpa using hfail i hi) (by simpa using hsucc)
  refine ⟨?_, ?_, ?_⟩
  · rw [requestWithFallback]
    simp only [List.drop_zero]
    rw [hLoop]
  · intro hzero
    subst hzero
    cases original with
    | nil => simp at hk
    | cons url rest => simp
  · intro hne
    cases original with
    | nil => simp at hk
    | cons url rest =>
      have h0 : (url :: rest).getD 0 "" = url := rfl
      rw [h0] at hne
      simpa using hne

/-- C6 witness: pool ["a", "b"], first attempt fails, second succeeds: one
default event then one success event with fallback = true. -/
theorem requestWithFallback_telemetry_witness :
    requestWithFallback ["a", "b"] 0 (fun i => i == 1) =
      { result := .ok "b"
        events := [⟨false, false⟩, ⟨true, true⟩]
        resets := 0
        remaining := ["b"] } :=
  (requestWithFallback_telemetry ["a", "b"] 1 (fun i => i == 1) (by decide)
    (fun i hi => by
      have : i = 0 := by omega
      subst this; rfl)
    rfl).1

end Eth1Api

/-- Below capacity, update appends the new duration and adds it to the
total. -/
lemma TimingMetrics.update_not_full (m : TimingMetrics) (d : Nat)
    (h : m.times.length < m.max_size) :
    m.update d =
      { times := m.times ++ [d], total := m.total + d, max_size := m.max_size } := by
  cases m with
  | mk times total max_size =>
    simp only [TimingMetrics.update]
    rw [if_neg (Nat.not_le.mpr h)]

/-- At capacity, update pops the oldest element, subtracts it from the
total, then appends the new duration and adds it. -/
lemma TimingMetrics.update_full (m : TimingMetrics) (d old : Nat) (rest : List Nat)
    (htimes : m.times = old :: rest) (hfull : m.max_size ≤ m.times.length) :
    m.update d =
      { times := rest ++ [d], total := m.total - old + d, max_size := m.max_size } := by
  cases m with
  | mk times total max_size =>
    simp only at htimes
    subst htimes
    simp only [TimingMetrics.update]
    rw [if_pos hfull]

/-- The window of a fresh TimingMetrics of capacity c ≥ 1 after a sequence
of updates is the last c elements of the sequence, the total is that
window's sum, and the capacity never changes. -/
lemma applyUpdates_window (c : Nat) (hc : 1 ≤ c) (ds : List Nat) :
    (applyUpdates (TimingMetrics.new c) ds).times = ds.drop (ds.length - c) ∧
    (applyUpdates (TimingMetrics.new c) ds).total = (ds.drop (ds.length - c)).sum ∧
    (applyUpdates (TimingMetrics.new c) ds).max_size = c := by
  induction ds using List.reverseRecOn with
  | nil => simp [applyUpdates, TimingMetrics.new]
  | append_singleton ds d ih =>
    obtain ⟨hTimes, hTotal, hMax⟩ := ih
    have hFold : applyUpdates (TimingMetrics.new c) (ds ++ [d]) =
        (applyUpdates (TimingMetrics.new c) ds).update d :=
      List.foldl_concat _ _ _ _
    rw [hFold]
    by_cases hlen : ds.length < c
    · have hd0 : ds.length - c = 0 := by omega
      have hTimesAll : (applyUpdates (TimingMetrics.new c) ds).times = ds := by
        rw [hTimes, hd0, List.drop_zero]
      have hlt : (applyUpdates (TimingMetrics.new c) ds).times.length <
          (applyUpdates (TimingMetrics.new c) ds).max_size := by
        rw [hTimesAll, hMax]; exact hlen
      rw [TimingMetrics.update_not_full _ d hlt]
      have hd1 : (ds ++ [d]).length - c = 0 := by simp; omega
      rw [hd1, List.drop_zero]
      refine ⟨by rw [hTimesAll], ?_, by rw [hMax]⟩
      simp [hTotal, hd0]
    · have hn : c ≤ ds.length := Nat.not_lt.mp hlen
      have hlenW : (applyUpdates (TimingMetrics.new c) ds).times.length = c := by
        rw [hTimes, List.length_drop]; omega
      obtain ⟨w, ws, hw⟩ :
          ∃ w ws, (applyUpdates (TimingMetrics.new c) ds).times = w :: ws := by
        cases hMt : (applyUpdates (TimingMetrics.new c) ds).times with
        | nil => rw [hMt] at hlenW; simp at hlenW; omega
        | cons a b => exact ⟨a, b, rfl⟩
      rw [TimingMetrics.update_full _ d w ws hw (by rw [hlenW, hMax])]
      have hdrop : ds.drop (ds.length - c) = w :: ws := by rw [← hTimes, hw]
      have hws : ws = ds.drop (ds.length - c + 1) := by
        have := List.tail_drop ds (ds.length - c)
        rw [hdrop] at this
        simpa using this
      have harith : (ds ++ [d]).length - c = ds.length - c + 1 := by simp; omega
      have hsplit : (ds ++ [d]).drop (ds.length - c + 1) =
          ds.drop (ds.length - c + 1) ++ [d] :=
        List.drop_append_of_le_length (by omega)
      refine ⟨?_, ?_, by rw [hMax]⟩
      · rw [harith, hsplit, ← hws]
      · have hsum : (applyUpdates (TimingMetrics.new c) ds).total = w + ws.sum := by
          rw [hTotal, hdrop]; simp
        rw [harith, hsplit, ← hws, hsum]
        simp [Nat.add_sub_cancel_left]

/-- C5 counterexample to the claim as stated: with capacity c = 0 the pop
branch fires on an empty window (pop_front returns None and nothing is
removed), then the push still happens, so after one update count() = 1
while min(n_updates, c) = min(1, 0) = 0, and the window length 1 exceeds
the capacity 0. -/
theorem timingMetrics_capacity_zero_counterexample :
    (applyUpdates (TimingMetrics.new 0) [5]).count = 1 ∧
    (applyUpdates (TimingMetrics.new 0) [5]).times.length = 1 ∧
    min ([5] : List Nat).length 0 = 0 :=
  ⟨rfl, rfl, by decide⟩

/-- C5 (amended): for every TimingMetrics constructed with capacity c ≥ 1
and every finite update sequence, count() = min(n, c), total() equals the
sum of the retained window, the window is exactly the last min(n, c)
updates in arrival order, its length never exceeds c, and insertion is
FIFO: at capacity an update removes the oldest element, decrements the
total by the removed value and increments it by the new one.  (For c = 0
the code keeps a one-element window instead, see the counterexample.) -/
theorem timingMetrics_window_invariants (c : Nat) (ds : List Nat) (hc : 1 ≤ c) :
    (applyUpdates (TimingMetrics.new c) ds).count = min ds.length c ∧
    (applyUpdates (TimingMetrics.new c) ds).total =
      (applyUpdates (TimingMetrics.new c) ds).times.sum ∧
    (applyUpdates (TimingMetrics.new c) ds).times = ds.drop (ds.length - c) ∧
    (applyUpdates (TimingMetrics.new c) ds).times.length ≤ c ∧
    (∀ (m : TimingMetrics) (d old : Nat) (rest : List Nat),
      m.times = old :: rest → m.times.length = m.max_size →
      (m.update d).times = rest ++ [d] ∧
      (m.update d).total = m.total - old + d) := by
  obtain ⟨hTimes, hTotal, hMax⟩ := applyUpdates_window c hc ds
  refine ⟨?_, ?_, hTimes, ?_, ?_⟩
  · rw [TimingMetrics.count, hTimes, List.length_drop]
    omega
  · rw [hTotal, hTimes]
  · rw [hTimes, List.length_drop]; omega
  · intro m d old rest htimes hfull
    rw [TimingMetrics.update_full m d old rest htimes (le_of_eq hfull.symm)]
    exact ⟨rfl, rfl⟩

/-- C5 witness: capacity 2, updates [1, 2, 3]: the window keeps the last
two updates and count is min(3, 2) = 2. -/
theorem timingMetrics_window_invariants_witness :
    (applyUpdates (TimingMetrics.new 2) [1, 2, 3]).count = min 3 2 ∧
    (applyUpdates (TimingMetrics.new 2) [1, 2, 3]).times = [2, 3] :=
  ⟨(timingMetrics_window_invariants 2 [1, 2, 3] (by decide)).1,
   (timingMetrics_window_invariants 2 [1, 2, 3] (by decide)).2.2.1⟩

/-- C9: for a non-empty window, median() equals
(sorted[n / 2] + sorted[n - 1 - n / 2]) / 2 for any ascending rearrangement
s of the window (so an even-length median is the integer-division mean of
the two central elements), and median, min, max, average and last are all
absent on an empty window. -/
theorem timingMetrics_median_spec (m : TimingMetrics) (s : List Nat)
    (hperm : m.times.Perm s) (hsorted : List.Sorted (· ≤ ·) s) :
    (m.times ≠ [] →
      m.median = some ((s.getD (m.times.length / 2) 0 +
        s.getD (m.times.length - 1 - m.times.length / 2) 0) / 2)) ∧
    (m.times = [] →
      m.median = none ∧ m.min = none ∧ m.max = none ∧
      m.average = none ∧ m.last = none) := by
  have hsort : List.insertionSort (· ≤ ·) m.times = s :=
    List.eq_of_perm_of_sorted ((List.perm_insertionSort _ m.times).trans hperm)
      (List.sorted_insertionSort _ m.times) hsorted
  constructor
  · intro hne
    have hlen : ¬ m.times.length = 0 := by
      intro h
      exact hne (List.length_eq_zero.mp h)
    simp only [TimingMetrics.median, hsort]
    rw [if_neg hlen]
  · intro hemp
    simp [TimingMetrics.median, TimingMetrics.min, TimingMetrics.max,
      TimingMetrics.average, TimingMetrics.last, hemp]

/-- C9 witness: the window [3, 1] has median (1 + 3) / 2 = 2. -/
theorem timingMetrics_median_spec_witness :
    TimingMetrics.median { times := [3, 1], total := 4, max_size := 100 } = some 2 :=
  (timingMetrics_median_spec { times := [3, 1], total := 4, max_size := 100 } [1, 3]
    (by decide) (by decide)).1 (by decide)
